import Mathlib

/-!
Shallow embedding of the job-search aggregation core of the
AI-Powered-Resume-Analyzer / Smart-Job-Finder repository
(`jobs/search_api.py` and the role-profile parsing in `app.py`),
together with theorems settling the frozen claims about it.

Python strings are modelled as Lean `String`; the handful of Python
string operations the code uses (`str.lower`, `str.startswith`,
`str.strip`, `str.split`, `str.replace`, the `in` substring test) are
given explicit executable definitions over the character list so that
concrete runs reduce inside the kernel.  Calendar dates are modelled as
integer day numbers, so `datetime.date.today() - timedelta(days=30)`
becomes `today - 30` and date comparison is integer comparison; the
result of a library date-parse that may raise is an `Option Int`
(`none` = the parse raises).  External HTTP traffic is modelled by
response oracles passed in as arguments.
-/

/-! ## Python string primitives -/

/-- ASCII lowercasing of one character, as `str.lower` acts on the
ASCII range used by this program. -/
def lowerChar (c : Char) : Char :=
  if 65 ≤ c.toNat ∧ c.toNat ≤ 90 then Char.ofNat (c.toNat + 32) else c

/-- Python `s.lower()`. -/
def pyLower (s : String) : String := ⟨s.data.map lowerChar⟩

/-- Python `s.startswith(p)`. -/
def pyStartswith (p s : String) : Bool := p.data.isPrefixOf s.data

/-- Python `needle in hay` on character lists: some suffix of the hay
starts with the needle. -/
def pyInChars (needle : List Char) : List Char → Bool
  | [] => needle.isEmpty
  | c :: rest => needle.isPrefixOf (c :: rest) || pyInChars needle rest

/-- Python `needle in hay` (substring test). -/
def pyIn (needle hay : String) : Bool := pyInChars needle.data hay.data

/-- Python whitespace for `str.strip`. -/
def pySpace (c : Char) : Bool :=
  c == ' ' || c == '\t' || c == '\n' || c == '\r' || c == '\x0b' || c == '\x0c'

/-- Python `s.strip()`: drop whitespace from both ends. -/
def pyStrip (s : String) : String :=
  ⟨((s.data.dropWhile pySpace).reverse.dropWhile pySpace).reverse⟩

/-- Helper for `pySplit`: accumulate the current piece (reversed). -/
def pySplitAux (sep : Char) : List Char → List Char → List (List Char)
  | [], cur => [cur.reverse]
  | c :: rest, cur =>
    if c == sep then cur.reverse :: pySplitAux sep rest []
    else pySplitAux sep rest (c :: cur)

/-- Python `s.split(sep)` for a one-character separator (the program
splits on newline and on comma). -/
def pySplit (sep : Char) (s : String) : List String :=
  (pySplitAux sep s.data []).map fun l => ⟨l⟩

/-- One step of `pyReplaceChars`: whether the pattern matches here. -/
def pyReplaceChars (pat repl : List Char) : List Char → List Char
  | [] => []
  | c :: rest =>
    if h : pat.isPrefixOf (c :: rest) ∧ pat ≠ [] then
      repl ++ pyReplaceChars pat repl ((c :: rest).drop pat.length)
    else
      c :: pyReplaceChars pat repl rest
termination_by l => l.length
decreasing_by
  · have hp : 0 < pat.length := List.length_pos.mpr h.2
    simp only [List.length_drop, List.length_cons]
    omega
  · simp [List.length_cons]

/-- Python `s.replace(pat, repl)` (every occurrence, left to right). -/
def pyReplace (s pat repl : String) : String :=
  ⟨pyReplaceChars pat.data repl.data s.data⟩

/-- Python truthiness of an optional string (`None` and `""` are falsy). -/
def pyTruthyStr : Option String → Bool
  | some s => s ≠ ""
  | none => false

/-! ## Data model: the AI-inferred role profile -/

/-- The dictionary produced by `detect_suitable_job_roles` in `app.py`:
all five keys are always present. -/
structure RoleProfile where
  primary_role : String
  alternative_roles : List String
  career_level : String
  key_strengths : List String
  recommended_keywords : List String
deriving DecidableEq, Repr

/-! ## Query Builder (`fetch_google_jobs_serpapi`, search_api.py lines 62-71)

```
queries = [ str(roles.get("primary_role", "")),
            f"{roles.get('primary_role','')} {str(roles.get('career_level','')).lower()}" ]
queries.extend(roles.get("alternative_roles", [])[:2])
queries.extend(roles.get("recommended_keywords", [])[:2])
for query in filter(None, queries): ...
```
`filter(None, ...)` drops exactly the falsy entries, i.e. the empty
string. -/

/-- The raw query list before filtering. -/
def rawQueries (r : RoleProfile) : List String :=
  [r.primary_role, r.primary_role ++ " " ++ pyLower r.career_level]
    ++ r.alternative_roles.take 2 ++ r.recommended_keywords.take 2

/-- The query sequence actually iterated over (`filter(None, queries)`). -/
def buildQueries (r : RoleProfile) : List String :=
  (rawQueries r).filter fun q => q ≠ ""

/-! ## Paid provider adapter (`fetch_google_jobs_serpapi`, search_api.py)

The SerpAPI response for one query is modelled by an oracle
`resp : String → SerpResponse`: a request either raises
(`GoogleSearch(params).get_dict()` throwing), returns a payload whose
dictionary contains an `"error"` key, or returns a list of raw job
dictionaries under `"jobs_results"`. -/

/-- One element of a `related_links` / `apply_options` list: a dict
whose `"link"` key may be absent. -/
structure LinkEntry where
  link : Option String
deriving DecidableEq, Repr

/-- The `detected_extensions` sub-dictionary. -/
structure DetectedExtensions where
  posted_at : Option String
  schedule_type : Option String
deriving DecidableEq, Repr

/-- A raw job dictionary out of `jobs_results`.  Every field the code
reads with `.get` is optional. -/
structure RawJob where
  title : Option String
  company_name : Option String
  location : Option String
  related_links : Option (List LinkEntry)
  apply_options : Option (List LinkEntry)
  search_link : Option String
  apply_link : Option String
  link : Option String
  detected_extensions : Option DetectedExtensions
  via : Option String
deriving DecidableEq, Repr

/-- The outcome of one SerpAPI request. -/
inductive SerpResponse where
  | exn : SerpResponse
  | errorPayload : SerpResponse
  | ok : List RawJob → SerpResponse
deriving DecidableEq, Repr

/-- `(job.get("related_links") or [{}])[0].get("link")`: a missing or
empty `related_links` list is falsy and is replaced by `[{}]`, whose
first dict has no `"link"`. -/
def relatedLinkCand (j : RawJob) : Option String :=
  match j.related_links with
  | some (d :: _) => d.link
  | _ => none

/-- `job.get("apply_options", [{}])[0].get("link")`: a missing key
defaults to `[{}]`, but a present *empty* list is indexed at `[0]` and
raises `IndexError` — modelled as `Except.error`. -/
def applyOptionsCand (j : RawJob) : Except Unit (Option String) :=
  match j.apply_options with
  | none => .ok none
  | some [] => .error ()
  | some (d :: _) => .ok d.link

/-- The link-extraction expression of search_api.py lines 94-100: a
Python `or` chain over the five candidates, short-circuiting at the
first truthy one and otherwise producing the value of the last
operand `job.get("link")`. -/
def extractLink (j : RawJob) : Except Unit (Option String) :=
  if pyTruthyStr (relatedLinkCand j) then .ok (relatedLinkCand j)
  else
    match applyOptionsCand j with
    | .error e => .error e
    | .ok a =>
      if pyTruthyStr a then .ok a
      else if pyTruthyStr j.search_link then .ok j.search_link
      else if pyTruthyStr j.apply_link then .ok j.apply_link
      else .ok j.link

/-- A normalized job record (`jd` in the code). -/
structure JobRec where
  title : Option String
  company : Option String
  location : Option String
  link : Option String
  posted : Option String
  schedule_type : Option String
  via : Option String
  match_reason : String
deriving DecidableEq, Repr

/-- Building `jd` for one raw job; raises iff link extraction raises. -/
def mkJob (query : String) (j : RawJob) : Except Unit JobRec :=
  match extractLink j with
  | .error e => .error e
  | .ok link =>
    .ok
      { title := j.title
        company := j.company_name
        location := j.location
        link := link
        posted := (j.detected_extensions.getD ⟨none, none⟩).posted_at
        schedule_type := (j.detected_extensions.getD ⟨none, none⟩).schedule_type
        via := j.via
        match_reason := "Matches: " ++ query }

/-- The duplicate test of lines 112-114: same `title` and same
`company` as an already-accepted record. -/
def dupOf (jd e : JobRec) : Bool :=
  jd.title == e.title && jd.company == e.company

/-- The inner `for job in res.get("jobs_results", [])` loop for one
query: checks the limit before each job, builds `jd`, appends it unless
it duplicates an accepted record.  The Boolean reports whether an
exception escaped the loop (it is caught by the per-query handler);
either way the accumulated list survives. -/
def processJobs (limit : Nat) (query : String) :
    List RawJob → List JobRec → List JobRec × Bool
  | [], acc => (acc, false)
  | j :: rest, acc =>
    if limit ≤ acc.length then (acc, false)
    else
      match mkJob query j with
      | .error _ => (acc, true)
      | .ok jd =>
        if acc.any (dupOf jd) then processJobs limit query rest acc
        else processJobs limit query rest (acc ++ [jd])

/-- The outer `for query in filter(None, queries)` loop.  Along with
the accumulated records it returns the list of queries for which a
request was actually issued.  `try ... except Exception: continue`
makes every response outcome proceed to the next query. -/
def fetchLoop (limit : Nat) (resp : String → SerpResponse) :
    List String → List JobRec → List String → List JobRec × List String
  | [], acc, reqs => (acc, reqs)
  | q :: qs, acc, reqs =>
    if limit ≤ acc.length then (acc, reqs)
    else
      match resp q with
      | .exn => fetchLoop limit resp qs acc (reqs ++ [q])
      | .errorPayload => fetchLoop limit resp qs acc (reqs ++ [q])
      | .ok jobs =>
        fetchLoop limit resp qs (processJobs limit q jobs acc).1 (reqs ++ [q])

/-- `fetch_google_jobs_serpapi`, instrumented with the list of issued
requests.  `if not api_key: return []` fires on a missing or empty
credential, before any request. -/
def fetchGoogleJobsRun (api_key : Option String) (resp : String → SerpResponse)
    (roles : RoleProfile) (limit : Nat) : List JobRec × List String :=
  if pyTruthyStr api_key = false then ([], [])
  else
    let out := fetchLoop limit resp (buildQueries roles) [] []
    (out.1.take limit, out.2)

/-- The value returned to the caller (`return all_jobs[:limit]`). -/
def fetch_google_jobs_serpapi (api_key : Option String)
    (resp : String → SerpResponse) (roles : RoleProfile) (limit : Nat) :
    List JobRec :=
  (fetchGoogleJobsRun api_key resp roles limit).1

/-! ## Free provider adapter (`enhanced_jobicy_search`, search_api.py)

The Jobicy HTTP fetch is modelled as `Option (List JobicyJob)` (`none`
= the request / JSON decode raises, handled by `except: pass` with
nothing matched yet).  A record's `published_at[:10]` parsed by
`datetime.date.fromisoformat` is modelled as `Option Int`: `none`
means the parse raises, which aborts the whole Jobicy `try` block. -/

/-- One record of the Jobicy JSON payload.  `published_at`, `title`
and `url` are accessed with mandatory indexing; `description` and
`company_name` with `.get` defaults. -/
structure JobicyJob where
  pub_date : Option Int
  title : String
  description : Option String
  company_name : Option String
  url : String
deriving DecidableEq, Repr

/-- One RSS entry; `pub_date` is the result of
`datetime.strptime(entry.published, "%a, %d %b %Y %H:%M:%S %z").date()`
(`none` = the parse raises). -/
structure RssEntry where
  pub_date : Option Int
  title : String
  link : String
deriving DecidableEq, Repr

/-- One parsed RSS feed (`feedparser.parse` returns entries without
raising). -/
structure RssFeed where
  entries : List RssEntry
deriving DecidableEq, Repr

/-- A matched record of the free adapter. -/
structure FreeJob where
  url : String
  title : String
  company : String
  match_reason : String
deriving DecidableEq, Repr

/-- `search_terms = [str(roles.get("primary_role",""))] + recommended_keywords`. -/
def searchTerms (r : RoleProfile) : List String :=
  r.primary_role :: r.recommended_keywords

/-- `(job.get("title","") + " " + job.get("description","")).lower()`. -/
def jobicyContent (j : JobicyJob) : String :=
  pyLower (j.title ++ " " ++ j.description.getD "")

/-- The first search term whose lowercase form occurs in the content
(the `for term in search_terms: ... break` loop). -/
def firstMatch (terms : List String) (content : String) : Option String :=
  terms.find? fun t => pyIn (pyLower t) content

/-- The matched record appended for a Jobicy job. -/
def mkJobicyRec (j : JobicyJob) (term : String) : FreeJob :=
  { url := j.url
    title := j.title
    company := j.company_name.getD "Unknown"
    match_reason := "Matches: " ++ term }

/-- The `for job in data` loop of the Jobicy block.  A date-parse
failure raises out of the surrounding `try`, so the remaining records
are dropped while the already-matched ones are kept. -/
def jobicyLoop (cutoff : Int) (terms : List String) :
    List JobicyJob → List FreeJob → List FreeJob
  | [], acc => acc
  | j :: rest, acc =>
    match j.pub_date with
    | none => acc
    | some pub =>
      if pub < cutoff then jobicyLoop cutoff terms rest acc
      else
        match firstMatch terms (jobicyContent j) with
        | none => jobicyLoop cutoff terms rest acc
        | some term => jobicyLoop cutoff terms rest (acc ++ [mkJobicyRec j term])

/-- The matched record appended for an RSS entry. -/
def mkRssRec (e : RssEntry) (term : String) : FreeJob :=
  { url := e.link
    title := e.title
    company := "Remote"
    match_reason := "Matches: " ++ term }

/-- The `for entry in feed.entries` loop of one RSS feed.  The Boolean
reports that a date parse raised; the exception propagates to the
single `try` wrapped around the whole RSS section. -/
def rssEntriesLoop (cutoff : Int) (terms : List String) :
    List RssEntry → List FreeJob → List FreeJob × Bool
  | [], acc => (acc, false)
  | e :: rest, acc =>
    match e.pub_date with
    | none => (acc, true)
    | some pub =>
      if pub < cutoff then rssEntriesLoop cutoff terms rest acc
      else
        match firstMatch terms (pyLower e.title) with
        | none => rssEntriesLoop cutoff terms rest acc
        | some term => rssEntriesLoop cutoff terms rest (acc ++ [mkRssRec e term])

/-- The `for rss in _RSS_FEEDS` loop.  One `try` covers all feeds, so
a raised exception stops the remaining entries *and* the remaining
feeds; `except: pass` keeps what was matched so far. -/
def rssFeedsLoop (cutoff : Int) (terms : List String) :
    List RssFeed → List FreeJob → List FreeJob
  | [], acc => acc
  | f :: rest, acc =>
    match rssEntriesLoop cutoff terms f.entries acc with
    | (acc2, true) => acc2
    | (acc2, false) => rssFeedsLoop cutoff terms rest acc2

/-- The Jobicy block of `enhanced_jobicy_search` (its own `try`). -/
def jobicyBlock (today : Int) (jobicyData : Option (List JobicyJob))
    (terms : List String) : List FreeJob :=
  match jobicyData with
  | none => []
  | some data => jobicyLoop (today - 30) terms data []

/-- `enhanced_jobicy_search(detected_roles, limit=10)`: the Jobicy
block, then the RSS block continuing the same `matched` list, then
`return matched[:limit]`. -/
def enhanced_jobicy_search (today : Int)
    (jobicyData : Option (List JobicyJob)) (feeds : List RssFeed)
    (roles : RoleProfile) (limit : Nat) : List FreeJob :=
  let terms := searchTerms roles
  let matched := jobicyBlock today jobicyData terms
  (rssFeedsLoop (today - 30) terms feeds matched).take limit

/-! ## Role-profile parsing (`detect_suitable_job_roles`, app.py lines 98-123) -/

/-- The hardcoded default profile. -/
def defaultRoles : RoleProfile :=
  { primary_role := "Software Engineer"
    alternative_roles := ["Developer", "Programmer", "Engineer"]
    career_level := "Mid Level"
    key_strengths := ["Programming", "Problem Solving", "Technology"]
    recommended_keywords := ["software engineer", "developer", "programming"] }

/-- `[x.strip() for x in s.split(',')]`. -/
def splitCommaStrip (s : String) : List String :=
  (pySplit ',' s).map pyStrip

/-- The `if line.startswith(...)` / `elif ...` chain applied to one
line of the model response. -/
def parseRoleLine (acc : RoleProfile) (line : String) : RoleProfile :=
  if pyStartswith "PRIMARY ROLE:" line then
    { acc with primary_role := pyStrip (pyReplace line "PRIMARY ROLE:" "") }
  else if pyStartswith "ALTERNATIVE ROLES:" line then
    { acc with alternative_roles :=
        splitCommaStrip (pyStrip (pyReplace line "ALTERNATIVE ROLES:" "")) }
  else if pyStartswith "CAREER LEVEL:" line then
    { acc with career_level := pyStrip (pyReplace line "CAREER LEVEL:" "") }
  else if pyStartswith "KEY STRENGTHS:" line then
    { acc with key_strengths :=
        splitCommaStrip (pyStrip (pyReplace line "KEY STRENGTHS:" "")) }
  else if pyStartswith "RECOMMENDED KEYWORDS:" line then
    { acc with recommended_keywords :=
        splitCommaStrip (pyStrip (pyReplace line "RECOMMENDED KEYWORDS:" "")) }
  else acc

/-- Whether a line carries any of the five labels. -/
def labeledLine (line : String) : Bool :=
  pyStartswith "PRIMARY ROLE:" line || pyStartswith "ALTERNATIVE ROLES:" line
    || pyStartswith "CAREER LEVEL:" line || pyStartswith "KEY STRENGTHS:" line
    || pyStartswith "RECOMMENDED KEYWORDS:" line

/-- `detect_suitable_job_roles` restricted to its parsing of the model
response (the prompt construction and the model call are external):
start from the defaults, and when the response is truthy fold the
line parser over `response.split('\n')`. -/
def detect_suitable_job_roles (response : String) : RoleProfile :=
  if response = "" then defaultRoles
  else (pySplit '\n' response).foldl parseRoleLine defaultRoles

/-! ## Shared helper lemmas -/

/-- Two normalized records do not collide on the `(title, company)`
deduplication key. -/
def distinctTC (a b : JobRec) : Prop :=
  ¬ (a.title = b.title ∧ a.company = b.company)

theorem dupOf_eq_false_iff {jd e : JobRec} :
    dupOf jd e = false ↔ ¬ (jd.title = e.title ∧ jd.company = e.company) := by
  simp [dupOf]

theorem pairwise_snoc_of_any_eq_false {acc : List JobRec} {jd : JobRec}
    (h : acc.Pairwise distinctTC) (hny : acc.any (dupOf jd) = false) :
    (acc ++ [jd]).Pairwise distinctTC := by
  rw [List.pairwise_append]
  refine ⟨h, List.pairwise_singleton _ _, ?_⟩
  intro a ha b hb
  rw [List.mem_singleton] at hb
  have hfa : ∀ x ∈ acc, ¬ dupOf jd x := by
    simpa [List.any_eq_false] using hny
  have hd := dupOf_eq_false_iff.mp (Bool.eq_false_iff.mpr (hfa a ha))
  rw [hb]
  intro hc
  exact hd ⟨hc.1.symm, hc.2.symm⟩

theorem processJobs_pairwise (limit : Nat) (q : String) (jobs : List RawJob) :
    ∀ acc : List JobRec, acc.Pairwise distinctTC →
      (processJobs limit q jobs acc).1.Pairwise distinctTC := by
  induction jobs with
  | nil => intro acc h; simpa [processJobs] using h
  | cons j rest ih =>
    intro acc h
    rw [processJobs]
    split
    · exact h
    · cases hmk : mkJob q j with
      | error e => simpa using h
      | ok jd =>
        by_cases hany : acc.any (dupOf jd)
        · simpa [hany] using ih acc h
        · have hany' : acc.any (dupOf jd) = false := Bool.eq_false_iff.mpr hany
          simpa [hany'] using
            ih (acc ++ [jd]) (pairwise_snoc_of_any_eq_false h hany')

theorem fetchLoop_pairwise (limit : Nat) (resp : String → SerpResponse)
    (qs : List String) :
    ∀ (acc : List JobRec) (reqs : List String), acc.Pairwise distinctTC →
      (fetchLoop limit resp qs acc reqs).1.Pairwise distinctTC := by
  induction qs with
  | nil => intro acc reqs h; simpa [fetchLoop] using h
  | cons q rest ih =>
    intro acc reqs h
    rw [fetchLoop]
    split
    · exact h
    · cases hr : resp q with
      | exn => simpa using ih acc _ h
      | errorPayload => simpa using ih acc _ h
      | ok jobs =>
        simpa using ih _ _ (processJobs_pairwise limit q jobs acc h)

/-! ## Claim C1 -/

/-- Claim C1, counterexample.  On a profile whose primary role and
career level are both empty, the second query
`f"{primary_role} {career_level.lower()}"` is the one-character blank
string `" "`, which is truthy and survives `filter(None, ...)`: the
Query Builder output contains a blank (whitespace-only) string. -/
theorem C1_counterexample :
    buildQueries ⟨"", [], "", [], []⟩ = [" "] ∧ pyStrip " " = "" := by
  decide

/-- Claim C1 as amended: for every RoleProfile the Query Builder
produces exactly the priority-ordered sequence (primary role;
primary role ++ " " ++ lowercased career level; first two alternative
roles; first two recommended keywords) with *empty* entries filtered
out — blank whitespace-only entries are not filtered — so the output
never contains the empty string and has length at most 6. -/
theorem C1_queries_no_empty_and_le_six (r : RoleProfile) :
    (∀ q ∈ buildQueries r, q ≠ "") ∧ (buildQueries r).length ≤ 6 := by
  constructor
  · intro q hq
    have := (List.mem_filter.mp hq).2
    simpa using this
  · have h1 : (buildQueries r).length ≤ (rawQueries r).length :=
      List.length_filter_le _ _
    have h2 : (rawQueries r).length ≤ 6 := by
      have ha : (r.alternative_roles.take 2).length ≤ 2 :=
        List.length_take_le _ _
      have hk : (r.recommended_keywords.take 2).length ≤ 2 :=
        List.length_take_le _ _
      simp only [rawQueries, List.length_append, List.length_cons,
        List.length_nil]
      omega
    omega

/-- Witness for C1: the amended theorem applied to the spec's
end-to-end example profile. -/
theorem C1_witness :
    "Data Scientist" ≠ "" ∧
      (buildQueries ⟨"Data Scientist", ["ML Engineer", "Analyst"], "Senior",
        [], ["python", "statistics"]⟩).length ≤ 6 :=
  ⟨(C1_queries_no_empty_and_le_six ⟨"Data Scientist",
      ["ML Engineer", "Analyst"], "Senior", [], ["python", "statistics"]⟩).1
      "Data Scientist" (by decide),
    (C1_queries_no_empty_and_le_six ⟨"Data Scientist",
      ["ML Engineer", "Analyst"], "Senior", [], ["python", "statistics"]⟩).2⟩

/-! ## Claim C2 -/

/-- Claim C2: for every role profile, credential, limit and sequence of
external responses, both provider adapters return at most `limit`
records. -/
theorem C2_limit_bound (api_key : Option String)
    (resp : String → SerpResponse) (roles : RoleProfile) (limit : Nat)
    (today : Int) (jobicyData : Option (List JobicyJob))
    (feeds : List RssFeed) :
    (fetch_google_jobs_serpapi api_key resp roles limit).length ≤ limit ∧
      (enhanced_jobicy_search today jobicyData feeds roles limit).length
        ≤ limit := by
  constructor
  · unfold fetch_google_jobs_serpapi fetchGoogleJobsRun
    split
    · simp
    · simp [List.length_take]
  · unfold enhanced_jobicy_search
    simp [List.length_take]

/-! ## Claim C5 -/

/-- Claim C5: with no API credential configured, the paid adapter
returns the empty list and the list of issued requests is empty; this
is an ordinary return value, not a raised error. -/
theorem C5_no_credential_no_request (resp : String → SerpResponse)
    (roles : RoleProfile) (limit : Nat) :
    fetch_google_jobs_serpapi none resp roles limit = [] ∧
      (fetchGoogleJobsRun none resp roles limit).2 = [] :=
  ⟨rfl, rfl⟩

/-! ## Claim C3 -/

/-- Claim C3, counterexample.  The free Jobicy adapter performs no
deduplication: two raw listings sharing `(title, company)` both appear
in its output. -/
theorem C3_counterexample :
    enhanced_jobicy_search 0
        (some [⟨some 0, "Dev", none, some "Acme", "u1"⟩,
               ⟨some 0, "Dev", none, some "Acme", "u2"⟩])
        [] ⟨"Dev", [], "", [], []⟩ 10
      = [⟨"u1", "Dev", "Acme", "Matches: Dev"⟩,
         ⟨"u2", "Dev", "Acme", "Matches: Dev"⟩]
    ∧ ("Dev" : String) = "Dev" ∧ ("Acme" : String) = "Acme" := by
  decide

/-- Claim C3 as amended: the `(title, company)` deduplication (first
encountered wins, later collisions discarded) holds within the *paid*
adapter's output; the free Jobicy/RSS adapter appends matches without
any deduplication. -/
theorem C3_paid_adapter_dedup (api_key : Option String)
    (resp : String → SerpResponse) (roles : RoleProfile) (limit : Nat) :
    (fetch_google_jobs_serpapi api_key resp roles limit).Pairwise
      distinctTC := by
  unfold fetch_google_jobs_serpapi fetchGoogleJobsRun
  split
  · simp
  · exact ((fetchLoop_pairwise limit resp (buildQueries roles) [] []
      (List.Pairwise.nil)).sublist (List.take_sublist _ _))

/-! ## Single-listing evaluation lemmas for the free adapter -/

/-- Evaluation of the free adapter on a single recent Jobicy record. -/
theorem jobicy_single_run (today d : Int) (j : JobicyJob)
    (roles : RoleProfile) (limit : Nat)
    (hpd : j.pub_date = some d) (hd : today - 30 ≤ d) (hl : 1 ≤ limit) :
    enhanced_jobicy_search today (some [j]) [] roles limit
      = match firstMatch (searchTerms roles) (jobicyContent j) with
        | none => []
        | some t => [mkJobicyRec j t] := by
  have hnlt : ¬ d < today - 30 := by omega
  cases hfm : firstMatch (searchTerms roles) (jobicyContent j) with
  | none =>
    simp only [enhanced_jobicy_search, jobicyBlock, jobicyLoop, hpd, hfm,
      hnlt, if_false, rssFeedsLoop]
    simp
  | some t =>
    simp only [enhanced_jobicy_search, jobicyBlock, jobicyLoop, hpd, hfm,
      hnlt, if_false, rssFeedsLoop, List.nil_append]
    exact List.take_of_length_le (by simpa using hl)

/-- Evaluation of the free adapter on a single recent RSS entry. -/
theorem rss_single_run (today d : Int) (e : RssEntry)
    (roles : RoleProfile) (limit : Nat)
    (hpd : e.pub_date = some d) (hd : today - 30 ≤ d) (hl : 1 ≤ limit) :
    enhanced_jobicy_search today (some []) [⟨[e]⟩] roles limit
      = match firstMatch (searchTerms roles) (pyLower e.title) with
        | none => []
        | some t => [mkRssRec e t] := by
  have hnlt : ¬ d < today - 30 := by omega
  cases hfm : firstMatch (searchTerms roles) (pyLower e.title) with
  | none =>
    simp only [enhanced_jobicy_search, jobicyBlock, jobicyLoop,
      rssFeedsLoop, rssEntriesLoop, hpd, hfm, hnlt, if_false]
    simp
  | some t =>
    simp only [enhanced_jobicy_search, jobicyBlock, jobicyLoop,
      rssFeedsLoop, rssEntriesLoop, hpd, hfm, hnlt, if_false,
      List.nil_append]
    exact List.take_of_length_le (by simpa using hl)

/-! ## Claim C4 -/

/-- Claim C4: in the free adapter, the recency filter
`pub < today - 30 → skip` is an inclusive 30-day window for *both*
sub-sources: a Jobicy listing or an RSS entry dated exactly 30 days
before today is kept (all other conditions met), and one dated 31 or
more days before today is dropped. -/
theorem C4_recency_boundary (today d1 d2 : Int) (j : JobicyJob)
    (e : RssEntry) (tj te : String) (roles : RoleProfile) (limit : Nat)
    (hpd : j.pub_date = some d1) (hed : e.pub_date = some d2)
    (hl : 1 ≤ limit)
    (hfm : firstMatch (searchTerms roles) (jobicyContent j) = some tj)
    (hfe : firstMatch (searchTerms roles) (pyLower e.title) = some te) :
    (d1 = today - 30 →
      enhanced_jobicy_search today (some [j]) [] roles limit
        = [mkJobicyRec j tj])
    ∧ (d1 ≤ today - 31 →
      enhanced_jobicy_search today (some [j]) [] roles limit = [])
    ∧ (d2 = today - 30 →
      enhanced_jobicy_search today (some []) [⟨[e]⟩] roles limit
        = [mkRssRec e te])
    ∧ (d2 ≤ today - 31 →
      enhanced_jobicy_search today (some []) [⟨[e]⟩] roles limit
        = []) := by
  refine ⟨?_, ?_, ?_, ?_⟩
  · intro hd
    rw [jobicy_single_run today d1 j roles limit hpd (by omega) hl, hfm]
  · intro hd
    have hlt : d1 < today - 30 := by omega
    simp only [enhanced_jobicy_search, jobicyBlock, jobicyLoop, hpd,
      hlt, if_true, rssFeedsLoop]
    simp
  · intro hd
    rw [rss_single_run today d2 e roles limit hed (by omega) hl, hfe]
  · intro hd
    have hlt : d2 < today - 30 := by omega
    simp only [enhanced_jobicy_search, jobicyBlock, jobicyLoop,
      rssFeedsLoop, rssEntriesLoop, hed, hlt, if_true]
    simp

/-- Witness for C4: all four bounds at a concrete run (`today = 100`,
window cutoff 70): a Jobicy listing and an RSS entry published on day
70 are returned, ones published on day 69 are not. -/
theorem C4_witness :
    enhanced_jobicy_search 100
        (some [⟨some 70, "Data Scientist", none, none, "u"⟩]) []
        ⟨"Data Scientist", [], "", [], []⟩ 10
      = [⟨"u", "Data Scientist", "Unknown", "Matches: Data Scientist"⟩]
    ∧ enhanced_jobicy_search 100
        (some [⟨some 69, "Data Scientist", none, none, "u"⟩]) []
        ⟨"Data Scientist", [], "", [], []⟩ 10 = []
    ∧ enhanced_jobicy_search 100 (some [])
        [⟨[⟨some 70, "Data Scientist", "l"⟩]⟩]
        ⟨"Data Scientist", [], "", [], []⟩ 10
      = [⟨"l", "Data Scientist", "Remote", "Matches: Data Scientist"⟩]
    ∧ enhanced_jobicy_search 100 (some [])
        [⟨[⟨some 69, "Data Scientist", "l"⟩]⟩]
        ⟨"Data Scientist", [], "", [], []⟩ 10 = [] := by
  refine ⟨?_, ?_, ?_, ?_⟩
  · exact (C4_recency_boundary 100 70 70
      ⟨some 70, "Data Scientist", none, none, "u"⟩
      ⟨some 70, "Data Scientist", "l"⟩ "Data Scientist" "Data Scientist"
      ⟨"Data Scientist", [], "", [], []⟩ 10 rfl rfl (by decide)
      (by decide) (by decide)).1 (by decide)
  · exact (C4_recency_boundary 100 69 69
      ⟨some 69, "Data Scientist", none, none, "u"⟩
      ⟨some 69, "Data Scientist", "l"⟩ "Data Scientist" "Data Scientist"
      ⟨"Data Scientist", [], "", [], []⟩ 10 rfl rfl (by decide)
      (by decide) (by decide)).2.1 (by decide)
  · exact (C4_recency_boundary 100 70 70
      ⟨some 70, "Data Scientist", none, none, "u"⟩
      ⟨some 70, "Data Scientist", "l"⟩ "Data Scientist" "Data Scientist"
      ⟨"Data Scientist", [], "", [], []⟩ 10 rfl rfl (by decide)
      (by decide) (by decide)).2.2.1 (by decide)
  · exact (C4_recency_boundary 100 69 69
      ⟨some 69, "Data Scientist", none, none, "u"⟩
      ⟨some 69, "Data Scientist", "l"⟩ "Data Scientist" "Data Scientist"
      ⟨"Data Scientist", [], "", [], []⟩ 10 rfl rfl (by decide)
      (by decide) (by decide)).2.2.2 (by decide)

/-! ## Claim C6 -/

/-- `find?` returns the first hit: the list decomposes into a prefix
of misses, the hit, and a remainder. -/
theorem find?_first_split {α : Type} (p : α → Bool) :
    ∀ (l : List α) (a : α), l.find? p = some a →
      ∃ pre post, l = pre ++ a :: post ∧ (∀ x ∈ pre, p x = false)
        ∧ p a = true := by
  intro l
  induction l with
  | nil => intro a h; simp [List.find?] at h
  | cons x xs ih =>
    intro a h
    by_cases hx : p x
    · rw [List.find?_cons_of_pos xs hx] at h
      cases h
      exact ⟨[], xs, rfl, by simp, hx⟩
    · rw [List.find?_cons_of_neg xs hx] at h
      obtain ⟨pre, post, hsplit, hmiss, hp⟩ := ih a h
      exact ⟨x :: pre, post, by rw [hsplit]; rfl, by
        intro y hy
        rcases List.mem_cons.mp hy with hy | hy
        · subst hy; exact Bool.eq_false_iff.mpr hx
        · exact hmiss y hy, hp⟩

/-- Claim C6, counterexample.  Jobicy matching tests the search term
against the *space-joined concatenation* of title and description, so
a term can match by straddling the boundary: with title `"ab"`,
description `"cd"` and search term `"b c"`, the listing is included
with `match_reason = "Matches: b c"` although `"b c"` is a
(case-insensitive) substring of neither the title nor the description
alone — refuting the claimed "iff substring of its title or its
description". -/
theorem C6_counterexample :
    enhanced_jobicy_search 0 (some [⟨some 0, "ab", some "cd", none, "u"⟩])
        [] ⟨"b c", [], "", [], []⟩ 10
      = [⟨"u", "ab", "Unknown", "Matches: b c"⟩]
    ∧ pyIn (pyLower "b c") (pyLower "ab") = false
    ∧ pyIn (pyLower "b c") (pyLower "cd") = false := by
  decide

/-- Claim C6 as amended: for a recent listing, (a) the Jobicy
sub-source includes it iff some search term's lowercase form is a
substring of the lowercased concatenation `title ++ " " ++ description`
(not of title-or-description separately); (b) when included, its
`match_reason` is `"Matches: "` followed by the first matching term in
term-priority order (primary role first, then recommended keywords),
each listing being attributed to exactly that single term; (c)/(d) the
same for an RSS entry with the term matched against the lowercased
title only. -/
theorem C6_keyword_match (today d1 d2 : Int) (j : JobicyJob)
    (e : RssEntry) (roles : RoleProfile) (limit : Nat)
    (hj : j.pub_date = some d1) (hd1 : today - 30 ≤ d1)
    (he : e.pub_date = some d2) (hd2 : today - 30 ≤ d2) (hl : 1 ≤ limit) :
    (enhanced_jobicy_search today (some [j]) [] roles limit = [] ↔
      ∀ t ∈ searchTerms roles, pyIn (pyLower t) (jobicyContent j) = false)
    ∧ (∀ t, firstMatch (searchTerms roles) (jobicyContent j) = some t →
        enhanced_jobicy_search today (some [j]) [] roles limit
            = [mkJobicyRec j t]
          ∧ pyIn (pyLower t) (jobicyContent j) = true
          ∧ ∃ pre post, searchTerms roles = pre ++ t :: post
              ∧ ∀ u ∈ pre, pyIn (pyLower u) (jobicyContent j) = false)
    ∧ (enhanced_jobicy_search today (some []) [⟨[e]⟩] roles limit = [] ↔
      ∀ t ∈ searchTerms roles, pyIn (pyLower t) (pyLower e.title) = false)
    ∧ (∀ t, firstMatch (searchTerms roles) (pyLower e.title) = some t →
        enhanced_jobicy_search today (some []) [⟨[e]⟩] roles limit
            = [mkRssRec e t]
          ∧ ∃ pre post, searchTerms roles = pre ++ t :: post
              ∧ ∀ u ∈ pre, pyIn (pyLower u) (pyLower e.title) = false) := by
  have hrunj := jobicy_single_run today d1 j roles limit hj hd1 hl
  have hrune := rss_single_run today d2 e roles limit he hd2 hl
  refine ⟨?_, ?_, ?_, ?_⟩
  · constructor
    · intro hout t ht
      cases hfm : firstMatch (searchTerms roles) (jobicyContent j) with
      | none =>
        have := List.find?_eq_none.mp hfm t ht
        exact Bool.eq_false_iff.mpr this
      | some u => rw [hrunj, hfm] at hout; cases hout
    · intro hall
      have hfm : firstMatch (searchTerms roles) (jobicyContent j) = none :=
        List.find?_eq_none.mpr fun t ht => by
          rw [hall t ht]; exact Bool.false_ne_true
      rw [hrunj, hfm]
  · intro t hfm
    obtain ⟨pre, post, hsplit, hmiss, hp⟩ :=
      find?_first_split _ (searchTerms roles) t hfm
    exact ⟨by rw [hrunj, hfm], hp, pre, post, hsplit, hmiss⟩
  · constructor
    · intro hout t ht
      cases hfm : firstMatch (searchTerms roles) (pyLower e.title) with
      | none =>
        have := List.find?_eq_none.mp hfm t ht
        exact Bool.eq_false_iff.mpr this
      | some u => rw [hrune, hfm] at hout; cases hout
    · intro hall
      have hfm : firstMatch (searchTerms roles) (pyLower e.title) = none :=
        List.find?_eq_none.mpr fun t ht => by
          rw [hall t ht]; exact Bool.false_ne_true
      rw [hrune, hfm]
  · intro t hfm
    obtain ⟨pre, post, hsplit, hmiss, hp⟩ :=
      find?_first_split _ (searchTerms roles) t hfm
    exact ⟨by rw [hrune, hfm], pre, post, hsplit, hmiss⟩

/-- Witness for C6: the spec's example — a listing titled
"Senior Data Scientist" with a description containing "python" and
search terms ["Data Scientist", "python"] is included with
`match_reason = "Matches: Data Scientist"`, the first matching term,
even though "python" also matches. -/
theorem C6_witness :
    enhanced_jobicy_search 100
        (some [⟨some 95, "Senior Data Scientist",
          some "We use python daily", none, "u"⟩]) []
        ⟨"Data Scientist", [], "", [], ["python"]⟩ 10
      = [⟨"u", "Senior Data Scientist", "Unknown",
          "Matches: Data Scientist"⟩] :=
  ((C6_keyword_match 100 95 95
      ⟨some 95, "Senior Data Scientist", some "We use python daily",
        none, "u"⟩
      ⟨some 95, "ignored", "l"⟩
      ⟨"Data Scientist", [], "", [], ["python"]⟩ 10
      rfl (by decide) rfl (by decide) (by decide)).2.1
    "Data Scientist" (by decide)).1

/-! ## Claim C7 -/

/-- Processing a list of RSS entries whose dates all parse never sets
the abort flag, and processing a concatenation runs the well-formed
prefix first. -/
theorem rssEntriesLoop_wf_step (cutoff : Int) (terms : List String) :
    ∀ (pre l : List RssEntry) (acc : List FreeJob),
      (∀ x ∈ pre, x.pub_date ≠ none) →
      rssEntriesLoop cutoff terms (pre ++ l) acc
          = rssEntriesLoop cutoff terms l
              (rssEntriesLoop cutoff terms pre acc).1
        ∧ (rssEntriesLoop cutoff terms pre acc).2 = false := by
  intro pre
  induction pre with
  | nil =>
    intro l acc hwf
    exact ⟨by simp [rssEntriesLoop], by simp [rssEntriesLoop]⟩
  | cons x pre ih =>
    intro l acc hwf
    cases hxe : x.pub_date with
    | none => exact absurd hxe (hwf x (List.mem_cons_self x pre))
    | some pub =>
      have hwf' : ∀ y ∈ pre, y.pub_date ≠ none := fun y hy =>
        hwf y (List.mem_cons_of_mem x hy)
      by_cases hlt : pub < cutoff
      · constructor
        · rw [List.cons_append]
          simp only [rssEntriesLoop, hxe, hlt, if_true]
          exact (ih l acc hwf').1
        · simp only [rssEntriesLoop, hxe, hlt, if_true]
          exact (ih l acc hwf').2
      · cases hfm : firstMatch terms (pyLower x.title) with
        | none =>
          constructor
          · rw [List.cons_append]
            simp only [rssEntriesLoop, hxe, hlt, if_false, hfm]
            exact (ih l acc hwf').1
          · simp only [rssEntriesLoop, hxe, hlt, if_false, hfm]
            exact (ih l acc hwf').2
        | some term =>
          constructor
          · rw [List.cons_append]
            simp only [rssEntriesLoop, hxe, hlt, if_false, hfm]
            exact (ih l (acc ++ [mkRssRec x term]) hwf').1
          · simp only [rssEntriesLoop, hxe, hlt, if_false, hfm]
            exact (ih l (acc ++ [mkRssRec x term]) hwf').2

/-- Claim C7, counterexample.  One malformed published date aborts the
whole RSS section: with the first feed's first entry malformed, the
adapter returns nothing, although the same feed's second entry and the
second feed's entry are both well-formed, recent (`¬ 0 < 0 - 30`) and
keyword-eligible (`"dev"` occurs in `"dev"`). -/
theorem C7_counterexample :
    enhanced_jobicy_search 0 (some [])
        [⟨[⟨none, "Dev", "l0"⟩, ⟨some 0, "Dev", "l1"⟩]⟩,
         ⟨[⟨some 0, "Dev", "l2"⟩]⟩]
        ⟨"Dev", [], "", [], []⟩ 10 = []
    ∧ pyIn (pyLower "Dev") (pyLower "Dev") = true
    ∧ ¬ ((0 : Int) < 0 - 30) := by
  decide

/-- Claim C7 as amended: the Jobicy sub-source and the RSS section are
isolated from each other, but every RSS feed shares one `try`: the
first malformed published date aborts the remaining entries of its
feed *and* all later feeds.  Records matched before the malformed
entry (including all Jobicy matches) are kept and the adapter still
returns normally, truncated to the limit. -/
theorem C7_rss_abort (today : Int) (jd : Option (List JobicyJob))
    (pre post : List RssEntry) (e : RssEntry) (rest : List RssFeed)
    (roles : RoleProfile) (limit : Nat)
    (he : e.pub_date = none) (hpre : ∀ x ∈ pre, x.pub_date ≠ none) :
    enhanced_jobicy_search today jd (⟨pre ++ e :: post⟩ :: rest) roles
        limit
      = ((rssEntriesLoop (today - 30) (searchTerms roles) pre
          (jobicyBlock today jd (searchTerms roles))).1).take limit := by
  have hstep := rssEntriesLoop_wf_step (today - 30) (searchTerms roles)
    pre (e :: post) (jobicyBlock today jd (searchTerms roles)) hpre
  dsimp only [enhanced_jobicy_search]
  simp only [rssFeedsLoop, hstep.1]
  simp only [rssEntriesLoop, he]

/-- Witness for C7: a concrete run in which the Jobicy match and the
RSS entry before the malformed one are returned, while the eligible
entries after it (same feed and next feed) are lost. -/
theorem C7_witness :
    enhanced_jobicy_search 0 (some [⟨some 0, "Dev", none, none, "u"⟩])
        (⟨[⟨some 0, "Dev", "l1"⟩] ++ ⟨none, "bad", "l0"⟩ ::
            [⟨some 0, "Dev", "l9"⟩]⟩ :: [⟨[⟨some 0, "Dev", "l2"⟩]⟩])
        ⟨"Dev", [], "", [], []⟩ 10
      = [⟨"u", "Dev", "Unknown", "Matches: Dev"⟩,
         ⟨"l1", "Dev", "Remote", "Matches: Dev"⟩] :=
  (C7_rss_abort 0 (some [⟨some 0, "Dev", none, none, "u"⟩])
      [⟨some 0, "Dev", "l1"⟩] [⟨some 0, "Dev", "l9"⟩]
      ⟨none, "bad", "l0"⟩ [⟨[⟨some 0, "Dev", "l2"⟩]⟩]
      ⟨"Dev", [], "", [], []⟩ 10 rfl (by decide)).trans (by decide)

/-! ## Claim C8 -/

/-- The value read out of `apply_options` when indexing does not raise
(spec-side view of the second candidate). -/
def applyOptionsVal (j : RawJob) : Option String :=
  match j.apply_options with
  | some (d :: _) => d.link
  | _ => none

/-- The first four link candidates in the spec's stated priority
order: related/original listing, apply options, search link, apply
link.  (The generic `link` field is the final fallback.) -/
def linkCandidates (j : RawJob) : List (Option String) :=
  [relatedLinkCand j, applyOptionsVal j, j.search_link, j.apply_link]

/-- The spec's description of link normalization: the first non-empty
candidate in priority order wins, the generic `link` field being the
last resort. -/
def firstNonEmptyLink (j : RawJob) : Option String :=
  match (linkCandidates j).find? pyTruthyStr with
  | some c => c
  | none => j.link

/-- Claim C8: whenever the extraction does not raise (the one raising
shape is an empty `apply_options` list reached with no related link),
the normalized link is the first non-empty candidate in the order
related links, apply options, search link, apply link, generic link;
in particular a raw record with only `apply_link` populated yields
exactly that value. -/
theorem C8_link_fallback (j : RawJob) (s : String)
    (hsafe : j.apply_options = some [] →
      pyTruthyStr (relatedLinkCand j) = true) :
    extractLink j = .ok (firstNonEmptyLink j)
    ∧ (j.related_links = none → j.apply_options = none →
        j.search_link = none → j.apply_link = some s → s ≠ "" →
        extractLink j = .ok (some s)) := by
  constructor
  · by_cases h1 : pyTruthyStr (relatedLinkCand j)
    · simp [extractLink, firstNonEmptyLink, linkCandidates, h1]
    · have hopt : applyOptionsCand j = .ok (applyOptionsVal j) := by
        cases ho : j.apply_options with
        | none => simp [applyOptionsCand, applyOptionsVal, ho]
        | some l =>
          cases l with
          | nil =>
            exact absurd (hsafe ho) (by simpa using h1)
          | cons d tl => simp [applyOptionsCand, applyOptionsVal, ho]
      by_cases h2 : pyTruthyStr (applyOptionsVal j)
      · simp [extractLink, firstNonEmptyLink, linkCandidates, h1, h2, hopt]
      · by_cases h3 : pyTruthyStr j.search_link
        · simp [extractLink, firstNonEmptyLink, linkCandidates, h1, h2,
            h3, hopt]
        · by_cases h4 : pyTruthyStr j.apply_link
          · simp [extractLink, firstNonEmptyLink, linkCandidates, h1,
              h2, h3, h4, hopt]
          · simp [extractLink, firstNonEmptyLink, linkCandidates, h1,
              h2, h3, h4, hopt]
  · intro hrel hopt hsearch happ hs
    have h1 : relatedLinkCand j = none := by
      simp [relatedLinkCand, hrel]
    have h2 : applyOptionsCand j = .ok none := by
      simp [applyOptionsCand, hopt]
    simp [extractLink, h1, h2, hsearch, happ, pyTruthyStr, hs]

/-- Witness for C8: a raw record whose only populated link field is
`apply_link` normalizes to that value. -/
theorem C8_witness :
    extractLink ⟨some "T", some "C", none, none, none, none,
        some "https://x", none, none, none⟩
      = .ok (some "https://x") :=
  (C8_link_fallback
      ⟨some "T", some "C", none, none, none, none, some "https://x",
        none, none, none⟩ "https://x"
      (fun h => Option.noConfusion h)).2 rfl rfl rfl rfl (by decide)

/-! ## Claim C10 -/

/-- Claim C10 (implicit behavior): a raw listing with no truthy
related link and a present-but-empty `apply_options` list makes the
link extraction index an empty list and raise; the per-query handler
catches it, so the records already accepted for that query survive,
the remaining raw listings of that query are dropped, later queries
are still processed, and the adapter returns normally. -/
theorem C10_empty_apply_options (key : String)
    (resp : String → SerpResponse) (roles : RoleProfile) (limit : Nat)
    (q1 q2 : String) (good bad dropped good2 : RawJob) (g1 g2 : JobRec)
    (hkey : key ≠ "")
    (hq : buildQueries roles = [q1, q2])
    (h1 : resp q1 = .ok [good, bad, dropped])
    (h2 : resp q2 = .ok [good2])
    (hg1 : mkJob q1 good = .ok g1)
    (hg2 : mkJob q2 good2 = .ok g2)
    (hbadrel : pyTruthyStr (relatedLinkCand bad) = false)
    (hbadopt : bad.apply_options = some [])
    (hnodup : dupOf g2 g1 = false)
    (hlim : 3 ≤ limit) :
    mkJob q1 bad = .error ()
    ∧ fetch_google_jobs_serpapi (some key) resp roles limit = [g1, g2] := by
  have hbad : mkJob q1 bad = .error () := by
    have hex : extractLink bad = .error () := by
      simp [extractLink, hbadrel, applyOptionsCand, hbadopt]
    simp [mkJob, hex]
  refine ⟨hbad, ?_⟩
  have hkt : pyTruthyStr (some key) = true := by
    simpa [pyTruthyStr] using hkey
  have hl0 : ¬ limit ≤ 0 := by omega
  have hl1 : ¬ limit ≤ 1 := by omega
  have hl2 : ¬ limit ≤ 2 := by omega
  have hproc1 : processJobs limit q1 [good, bad, dropped] [] = ([g1], true) := by
    rw [processJobs]
    simp only [List.length_nil, hl0, if_false, hg1, List.any_nil,
      Bool.false_eq_true, List.nil_append]
    rw [processJobs]
    simp only [List.length_cons, List.length_nil, hl1, if_false, hbad]
  have hproc2 : processJobs limit q2 [good2] [g1] = ([g1, g2], false) := by
    rw [processJobs]
    simp only [List.length_cons, List.length_nil, hl1, if_false, hg2,
      List.any_cons, List.any_nil, hnodup, Bool.or_false,
      Bool.false_eq_true, if_false, List.cons_append, List.nil_append]
    rw [processJobs]
  have hloop : fetchLoop limit resp [q1, q2] [] [] = ([g1, g2], [q1, q2]) := by
    rw [fetchLoop]
    simp only [List.length_nil, hl0, if_false, h1, hproc1]
    rw [fetchLoop]
    simp only [List.length_cons, List.length_nil, hl1, if_false, h2,
      hproc2]
    rw [fetchLoop]
    simp
  unfold fetch_google_jobs_serpapi fetchGoogleJobsRun
  rw [hkt]
  simp only [Bool.true_eq_false, if_false, hq, hloop]
  exact List.take_of_length_le (by simp; omega)

/-- Witness for C10: a concrete run with two queries; the bad listing
(empty `apply_options`) aborts the rest of query 1's listings, the
record accepted before it survives, and query 2 is still processed. -/
theorem C10_witness :
    fetch_google_jobs_serpapi (some "k")
        (fun q => if q = "Q"
          then .ok [⟨some "T1", some "C1", none, none, none, none,
                      some "http://a", none, none, none⟩,
                    ⟨none, none, none, none, some [], none, none, none,
                      none, none⟩,
                    ⟨some "TD", some "CD", none, none, none, none, none,
                      some "http://d", none, none⟩]
          else .ok [⟨some "T2", some "C2", none, none, none, none, none,
                      some "http://b", none, none⟩])
        ⟨"Q", [], "L", [], []⟩ 15
      = [⟨some "T1", some "C1", none, some "http://a", none, none, none,
            "Matches: Q"⟩,
         ⟨some "T2", some "C2", none, some "http://b", none, none, none,
            "Matches: Q l"⟩] :=
  (C10_empty_apply_options "k" _ ⟨"Q", [], "L", [], []⟩ 15 "Q" "Q l"
      ⟨some "T1", some "C1", none, none, none, none, some "http://a",
        none, none, none⟩
      ⟨none, none, none, none, some [], none, none, none, none, none⟩
      ⟨some "TD", some "CD", none, none, none, none, none,
        some "http://d", none, none⟩
      ⟨some "T2", some "C2", none, none, none, none, none,
        some "http://b", none, none⟩
      ⟨some "T1", some "C1", none, some "http://a", none, none, none,
        "Matches: Q"⟩
      ⟨some "T2", some "C2", none, some "http://b", none, none, none,
        "Matches: Q l"⟩
      (by decide) (by decide) rfl rfl rfl rfl rfl rfl rfl
      (by decide)).2

/-! ## Claim C9 -/

/-- A line with none of the five labels leaves the profile unchanged. -/
theorem parseRoleLine_unlabeled (acc : RoleProfile) (line : String)
    (h : labeledLine line = false) : parseRoleLine acc line = acc := by
  simp only [labeledLine, Bool.or_eq_false_iff] at h
  obtain ⟨⟨⟨⟨h1, h2⟩, h3⟩, h4⟩, h5⟩ := h
  simp [parseRoleLine, h1, h2, h3, h4, h5]

/-- Folding the parser over unlabeled lines is the identity. -/
theorem foldl_parse_unlabeled :
    ∀ (lines : List String) (acc : RoleProfile),
      (∀ l ∈ lines, labeledLine l = false) →
      lines.foldl parseRoleLine acc = acc := by
  intro lines
  induction lines with
  | nil => intro acc h; rfl
  | cons x xs ih =>
    intro acc h
    rw [List.foldl_cons,
      parseRoleLine_unlabeled acc x (h x (List.mem_cons_self x xs))]
    exact ih acc fun l hl => h l (List.mem_cons_of_mem x hl)

/-- A line without the `PRIMARY ROLE:` label never changes
`primary_role` (it may change other fields). -/
theorem parseRoleLine_primary (acc : RoleProfile) (line : String)
    (h : pyStartswith "PRIMARY ROLE:" line = false) :
    (parseRoleLine acc line).primary_role = acc.primary_role := by
  simp only [parseRoleLine, h, Bool.false_eq_true, if_false]
  split
  · rfl
  · split
    · rfl
    · split
      · rfl
      · split
        · rfl
        · rfl

/-- `primary_role` survives a fold over lines lacking its label. -/
theorem foldl_parse_primary :
    ∀ (lines : List String) (acc : RoleProfile),
      (∀ l ∈ lines, pyStartswith "PRIMARY ROLE:" l = false) →
      (lines.foldl parseRoleLine acc).primary_role = acc.primary_role := by
  intro lines
  induction lines with
  | nil => intro acc h; rfl
  | cons x xs ih =>
    intro acc h
    rw [List.foldl_cons]
    rw [ih (parseRoleLine acc x) fun l hl => h l (List.mem_cons_of_mem x hl)]
    exact parseRoleLine_primary acc x (h x (List.mem_cons_self x xs))

/-- Claim C9: role-profile parsing is line-prefix-based and tolerant —
an empty response yields the full default profile; a response none of
whose lines carries a label yields the full default profile
(`primary_role = "Software Engineer"`,
`alternative_roles = ["Developer", "Programmer", "Engineer"]`,
`career_level = "Mid Level"`); and a response with no `PRIMARY ROLE:`
line keeps the default `primary_role` whatever its other lines do. -/
theorem C9_parse_tolerant :
    detect_suitable_job_roles "" = defaultRoles
    ∧ (∀ r : String, (∀ l ∈ pySplit '\n' r, labeledLine l = false) →
        detect_suitable_job_roles r = defaultRoles)
    ∧ (∀ r : String,
        (∀ l ∈ pySplit '\n' r, pyStartswith "PRIMARY ROLE:" l = false) →
        (detect_suitable_job_roles r).primary_role
          = "Software Engineer") := by
  refine ⟨rfl, ?_, ?_⟩
  · intro r h
    unfold detect_suitable_job_roles
    split
    · rfl
    · exact foldl_parse_unlabeled _ _ h
  · intro r h
    unfold detect_suitable_job_roles
    split
    · rfl
    · exact foldl_parse_primary _ _ h

/-- Witness for C9: a nonempty response with no labeled field falls
back entirely to the defaults. -/
theorem C9_witness :
    detect_suitable_job_roles "hello\nthis resume is great\nbye"
      = defaultRoles :=
  C9_parse_tolerant.2.1 "hello\nthis resume is great\nbye" (by decide)
